import Mathlib

/-!
Shallow embedding of the K8s-Central operator console (src/main.py) and a
verification of a set of claims about it.

Modelling conventions:
* Python dictionaries become insertion-ordered association lists
  (`List (String × _)`) with `dictSet` / `dictErase` mirroring
  `d[k] = v` and `d.pop(k)`.
* Python strings become Lean `String`, except where character-level
  reasoning is required (image references, deployment names), where they
  become `List Char`.
* Every fallible upstream interaction (Kubernetes API calls, the SSO
  role-credential exchange, the kubeconfig account-id scan) is an explicit
  oracle parameter of `Except` / `Option` type; `Except.error` models a
  raised exception reaching the surrounding `try`.
* The process-global mutable state (`CACHE`, `SSO_SESSION`, the JSON file
  behind `load_db` / `save_db`) is collected in `AppState`, and each route
  is a function from its inputs and the pre-state to its response fragment
  and post-state.
-/

/-- Python `d[k] = v` on an insertion-ordered association list: replaces the
value in place when the key is present, appends a new entry otherwise. -/
def dictSet {β : Type} (e : List (String × β)) (k : String) (v : β) :
    List (String × β) :=
  match e with
  | [] => [(k, v)]
  | (k₁, v₁) :: rest => if k₁ = k then (k, v) :: rest else (k₁, v₁) :: dictSet rest k v

/-- Python `d.pop(k, None)` / `del d[k]`: removes the entry for `k`. -/
def dictErase {β : Type} (e : List (String × β)) (k : String) :
    List (String × β) :=
  e.filter (fun kv => kv.1 != k)

theorem lookup_dictSet_self {β : Type} (e : List (String × β)) (k : String) (v : β) :
    (dictSet e k v).lookup k = some v := by
  induction e with
  | nil => simp [dictSet, List.lookup]
  | cons hd t ih =>
    obtain ⟨k₁, v₁⟩ := hd
    by_cases h : k₁ = k
    · simp [dictSet, h, List.lookup]
    · have hne : (k == k₁) = false := by
        exact beq_eq_false_iff_ne.mpr (fun hk => h hk.symm)
      simp [dictSet, h, List.lookup, hne, ih]

theorem lookup_dictErase_self {β : Type} (e : List (String × β)) (k : String) :
    (dictErase e k).lookup k = none := by
  induction e with
  | nil => rfl
  | cons hd t ih =>
    obtain ⟨k₁, v₁⟩ := hd
    by_cases h : k₁ = k
    · simp [dictErase, h, List.filter] at ih ⊢
      simpa [dictErase] using ih
    · have hb : (k₁ != k) = true := by simp [bne_iff_ne, h]
      have hne : (k == k₁) = false := by
        exact beq_eq_false_iff_ne.mpr (fun hk => h hk.symm)
      simp [dictErase, List.filter, hb, List.lookup, hne] at ih ⊢
      simpa [dictErase] using ih

/-- Python `str.split(sep)` for a one-character separator, on `List Char`:
always returns at least one (possibly empty) chunk, like Python. -/
def splitChar (sep : Char) : List Char → List (List Char)
  | [] => [[]]
  | c :: rest =>
    if c = sep then [] :: splitChar sep rest
    else
      match splitChar sep rest with
      | [] => [[c]]
      | h :: t => (c :: h) :: t

theorem splitChar_ne_nil (sep : Char) (l : List Char) : splitChar sep l ≠ [] := by
  cases l with
  | nil => simp [splitChar]
  | cons c rest =>
    simp only [splitChar]
    split
    · simp
    · split
      · simp
      · simp

theorem splitChar_head (sep : Char) (l : List Char) :
    (splitChar sep l)[0]? = some (l.takeWhile (fun c => c != sep)) := by
  induction l with
  | nil => simp [splitChar]
  | cons c rest ih =>
    by_cases h : c = sep
    · subst h
      simp [splitChar, List.takeWhile_cons]
    · have hb : (c != sep) = true := by simp [bne_iff_ne, h]
      simp only [splitChar, if_neg h]
      cases hs : splitChar sep rest with
      | nil => exact absurd hs (splitChar_ne_nil sep rest)
      | cons h₀ t =>
        rw [hs] at ih
        simp only [List.getElem?_cons_zero, Option.some.injEq] at ih
        simp [List.takeWhile_cons, hb, ih]

/-- `splitChar` of a separator-free list is the single chunk `[l]`. -/
theorem splitChar_eq_singleton (sep : Char) (l x : List Char)
    (h : splitChar sep l = [x]) : x = l ∧ sep ∉ l := by
  induction l generalizing x with
  | nil =>
    simp [splitChar] at h
    subst h
    exact ⟨rfl, by simp⟩
  | cons c rest ih =>
    by_cases hc : c = sep
    · subst hc
      simp only [splitChar, if_pos rfl] at h
      obtain ⟨h1, h2⟩ := List.cons.injEq _ _ _ _ ▸ h
      exact absurd h2 (splitChar_ne_nil c rest)
    · simp only [splitChar, if_neg hc] at h
      cases hs : splitChar sep rest with
      | nil => exact absurd hs (splitChar_ne_nil sep rest)
      | cons h₀ t =>
        rw [hs] at h
        obtain ⟨h1, h2⟩ := List.cons.injEq _ _ _ _ ▸ h
        subst h2
        obtain ⟨rfl, hnm⟩ := ih h₀ (by rw [hs])
        constructor
        · exact h1.symm
        · intro hmem
          rcases List.mem_cons.mp hmem with h' | h'
          · exact hc h'.symm
          · exact hnm h'

/-- `splitChar` of a separator-free list is the single chunk `[l]`. -/
theorem splitChar_not_mem (sep : Char) (l : List Char) (h : sep ∉ l) :
    splitChar sep l = [l] := by
  induction l with
  | nil => rfl
  | cons c rest ih =>
    have h1 : sep ∉ rest := fun hm => h (List.mem_cons_of_mem _ hm)
    have h2 : ¬(c = sep) := fun hc => h (hc ▸ List.mem_cons_self c rest)
    simp only [splitChar, if_neg h2, ih h1]

theorem splitChar_cons_sep (sep : Char) (rest : List Char) :
    splitChar sep (sep :: rest) = [] :: splitChar sep rest := by
  simp [splitChar]

theorem splitChar_cons_ne (sep c : Char) (rest : List Char) (h₀ : List Char)
    (t : List (List Char)) (hc : ¬(c = sep)) (hs : splitChar sep rest = h₀ :: t) :
    splitChar sep (c :: rest) = (c :: h₀) :: t := by
  simp only [splitChar, if_neg hc, hs]

/-- Element 1 of a Python-style split: present exactly when the separator
occurs, and then equal to the chunk between the first separator and the
next one. -/
theorem splitChar_get1 (sep : Char) (l : List Char) :
    (splitChar sep l)[1]? =
      if sep ∈ l then
        some (((l.dropWhile (fun c => c != sep)).drop 1).takeWhile (fun c => c != sep))
      else none := by
  induction l with
  | nil => simp [splitChar]
  | cons c rest ih =>
    by_cases h : c = sep
    · subst h
      have hb : (c != c) = false := by simp
      rw [splitChar_cons_sep, List.getElem?_cons_succ, splitChar_head]
      simp [List.dropWhile_cons, hb]
    · have hb : (c != sep) = true := by simp [bne_iff_ne, h]
      have hmem : (sep ∈ c :: rest) ↔ (sep ∈ rest) := by
        constructor
        · intro hx
          rcases List.mem_cons.mp hx with h' | h'
          · exact absurd h'.symm h
          · exact h'
        · exact List.mem_cons_of_mem c
      cases hs : splitChar sep rest with
      | nil => exact absurd hs (splitChar_ne_nil sep rest)
      | cons h₀ t =>
        rw [hs] at ih
        rw [splitChar_cons_ne sep c rest h₀ t h hs]
        rw [List.getElem?_cons_succ] at ih ⊢
        rw [ih]
        simp only [List.dropWhile_cons, hb, if_true]
        by_cases hm : sep ∈ rest
        · simp [hm, hmem.mpr hm]
        · have hsc : ¬(sep = c) := fun hx => h hx.symm
          simp [hm, hsc]

/-- The part of `l` strictly after the last occurrence of `sep` (`l` itself
when `sep` never occurs): a direct reading of "the last `sep`-segment". -/
def afterLast (sep : Char) : List Char → List Char
  | [] => []
  | c :: rest =>
    if sep ∈ rest then afterLast sep rest
    else if c = sep then rest else c :: rest

theorem afterLast_of_not_mem (sep : Char) (l : List Char) (h : sep ∉ l) :
    afterLast sep l = l := by
  cases l with
  | nil => rfl
  | cons c rest =>
    have h1 : sep ∉ rest := fun hm => h (List.mem_cons_of_mem _ hm)
    have h2 : ¬(c = sep) := fun hc => h (hc ▸ List.mem_cons_self c rest)
    simp [afterLast, h1, h2]

/-- `l.split(sep)[-1]` is the part of `l` after the last separator. -/
theorem splitChar_getLast (sep : Char) (l : List Char) :
    (splitChar sep l).getLast? = some (afterLast sep l) := by
  induction l with
  | nil => simp [splitChar, afterLast]
  | cons c rest ih =>
    by_cases h : c = sep
    · subst h
      rw [splitChar_cons_sep]
      cases hs : splitChar c rest with
      | nil => exact absurd hs (splitChar_ne_nil c rest)
      | cons h₀ t =>
        rw [hs] at ih
        rw [List.getLast?_cons_cons, ih]
        by_cases hm : c ∈ rest
        · simp [afterLast, hm]
        · simp [afterLast, hm, afterLast_of_not_mem c rest hm]
    · cases hs : splitChar sep rest with
      | nil => exact absurd hs (splitChar_ne_nil sep rest)
      | cons h₀ t =>
        rw [hs] at ih
        rw [splitChar_cons_ne sep c rest h₀ t h hs]
        cases t with
        | nil =>
          obtain ⟨heq, hnm⟩ := splitChar_eq_singleton sep rest h₀ hs
          subst heq
          have hm : sep ∉ c :: h₀ := by
            intro hmem
            rcases List.mem_cons.mp hmem with h' | h'
            · exact h h'.symm
            · exact hnm h'
          simp [afterLast_of_not_mem sep _ hm]
        | cons t₀ ts =>
          have hm : sep ∈ rest := by
            by_contra hnm
            have := splitChar_not_mem sep rest hnm
            rw [hs] at this
            have hlen := congrArg List.length this
            simp at hlen
          rw [List.getLast?_cons_cons]
          rw [List.getLast?_cons_cons] at ih
          rw [ih]
          simp [afterLast, hm]

/-- Source translation of the image-tag derivation in `get_k8s_status`:
`image.split('/')[-1].split(':')[1] if ':' in image else "latest"`.
The result is `none` exactly when Python raises `IndexError` on the `[1]`
(the last `/`-segment has no `:` although the whole reference does); that
exception is swallowed by the surrounding `try` and surfaces as the
generic Error fragment. -/
def shortImage (image : List Char) : Option (List Char) :=
  if ':' ∈ image then (splitChar ':' ((splitChar '/' image).getLastD []))[1]?
  else some ("latest".data)

/-- Spec-style reading of the same derivation, written independently of
`splitChar`: when the reference contains `':'`, take the last `/`-segment;
if that segment contains `':'`, the tag is the text between the segment's
first `':'` and the following `':'` (or its end); if the segment has no
`':'` the derivation fails; a reference without `':'` yields `"latest"`. -/
def tagSpec (image : List Char) : Option (List Char) :=
  if ':' ∈ image then
    let seg := afterLast '/' image
    if ':' ∈ seg then
      some (((seg.dropWhile (fun c => c != ':')).drop 1).takeWhile (fun c => c != ':'))
    else none
  else some ("latest".data)

theorem getLastD_of_getLast (l : List (List Char)) (x : List Char)
    (h : l.getLast? = some x) : l.getLastD [] = x := by
  rw [List.getLastD_eq_getLast?, h]
  rfl

/-- C7 (corrected): the image-tag derivation equals the spec-style reading
`tagSpec`: `"latest"` when the reference has no `':'`; otherwise the text
between the first `':'` of the last `/`-segment and the next `':'`, and a
failure (propagating to the Error branch) when the reference contains `':'`
but its last `/`-segment does not.  In particular the tag is neither
"the substring after the last `':'` of the reference" nor total. -/
theorem c7_amended_tag_derivation (image : List Char) :
    shortImage image = tagSpec image := by
  unfold shortImage tagSpec
  by_cases h : ':' ∈ image
  · rw [if_pos h, if_pos h]
    rw [getLastD_of_getLast _ _ (splitChar_getLast '/' image)]
    rw [splitChar_get1]
  · rw [if_neg h, if_neg h]

/-- C7 counterexample: for the image reference `"registry:5000/app"` (a
registry host with a port and no tag) the derivation fails — `none` models
the `IndexError` — although a `':'` separator is present, refuting both
"the tag is the substring after the last `':'`" and "this derivation never
fails for any image reference string". -/
theorem c7_counterexample :
    shortImage ("registry:5000/app".data) = none ∧
      ':' ∈ ("registry:5000/app".data) := by
  constructor
  · decide
  · decide

/-- A cluster record of the JSON registry: `{"id", "alias", "config_path"}`. -/
structure Cluster where
  id : String
  alias_name : String
  config_path : String
deriving DecidableEq

/-- A service binding: `svc["clusters"][cluster_id] = {"deployment", "namespace"}`. -/
structure Binding where
  deployment : String
  namespace' : String
deriving DecidableEq

/-- A service record: `{"ui_name", "clusters": {cluster_id: Binding}}`. -/
structure Service where
  ui_name : String
  clusters : List (String × Binding)
deriving DecidableEq

/-- The JSON registry behind `load_db` / `save_db`. -/
structure DB where
  clusters : List Cluster
  services : List Service
deriving DecidableEq

/-- A credential-cache entry (the `pkg` dict of `get_cluster_credentials`):
`{"AccessKeyId", "SecretAccessKey", "SessionToken", "Expiration"}`, the
expiration instant in seconds. -/
structure CredPkg where
  accessKeyId : String
  secretAccessKey : String
  sessionToken : String
  expiration : Nat
deriving DecidableEq

/-- The `SSO_SESSION` global: access token (`none` = logged out), region,
role name and the per-account credential cache. -/
structure SSOSession where
  access_token : Option String
  region : String
  role_name : Option String
  cred_cache : List (String × CredPkg)
deriving DecidableEq

/-- The `CACHE` global: rendered-fragment caches for cluster stats and for
per-(cluster, service) statuses, plus the last-refresh timestamp. -/
structure Cache where
  stats : List (String × String)
  statuses : List (String × String)
  timestamp : Nat
deriving DecidableEq

/-- The whole process state the routes read and write. -/
structure AppState where
  db : DB
  cache : Cache
  sso : SSOSession
deriving DecidableEq

/-- An upstream failure raised inside a `try` block: a Kubernetes
`ApiException` carrying an HTTP status (404 = missing resource), or any
other exception. -/
inductive UpstreamErr where
  | api (status : Nat)
  | exn
deriving DecidableEq

/-- The data `get_cluster_stats` reads inside its `with AWSContext` block. -/
structure ClusterStats where
  git_version : String
  nodes : Nat
deriving DecidableEq

/-- The deployment object `get_k8s_status` reads: first container's image
reference and the replica counters (`none` models Python `None`). -/
structure Deployment where
  image : List Char
  ready_replicas : Option Nat
  replicas : Option Nat
deriving DecidableEq

/-- Python `f"{x}"` for an optional integer (`str(None) = "None"`). -/
def pyStrOptNat : Option Nat → String
  | none => "None"
  | some n => toString n

/-- Python truthiness of an optional string (`None` and `""` are falsy). -/
def truthyStr : Option String → Bool
  | none => false
  | some s => !(s == "")

/-- `SSO_SESSION["role_name"] or "AdministratorAccess"`. -/
def effective_role (sso : SSOSession) : String :=
  match sso.role_name with
  | none => "AdministratorAccess"
  | some r => if r == "" then "AdministratorAccess" else r

/-- Embedding of `get_cluster_credentials(cluster_id)`.

`extract` is the oracle for `extract_account_id` (a read of the kubeconfig
file), `exchange` the oracle for `sso.get_role_credentials` taking role
name, account id, access token and region, `now` the value of
`time.time()`.  Returns the credentials (or `none` = NotAvailable), the
post-state, and whether the upstream exchange was invoked (the code calls
it at most once per resolution). -/
def get_cluster_credentials
    (extract : String → Option String)
    (exchange : String → String → String → String → Except Unit CredPkg)
    (now : Nat) (cluster_id : String) (s : AppState) :
    Option CredPkg × AppState × Bool :=
  match s.sso.access_token with
  | none => (none, s, false)
  | some tok =>
    if tok == "" then (none, s, false)
    else
      match s.db.clusters.find? (fun c => c.id == cluster_id) with
      | none => (none, s, false)
      | some cluster =>
        match extract cluster.config_path with
        | none => (none, s, false)
        | some account_id =>
          let cachedFresh :=
            match s.sso.cred_cache.lookup account_id with
            | some cached => if now < cached.expiration then some cached else none
            | none => none
          match cachedFresh with
          | some cached => (some cached, s, false)
          | none =>
            match exchange (effective_role s.sso) account_id tok s.sso.region with
            | Except.ok pkg =>
              (some pkg,
               { s with sso :=
                  { s.sso with cred_cache := dictSet s.sso.cred_cache account_id pkg } },
               true)
            | Except.error _ => (none, s, true)

/-- A process environment (`os.environ`), as an insertion-ordered map. -/
abbrev Env : Type := List (String × String)

/-- `os.environ.clear()`. -/
def env_clear (_ : Env) : Env := []

/-- `os.environ.update(entries)`: set every key of `entries` in order. -/
def env_update (e : Env) (entries : Env) : Env :=
  entries.foldl (fun acc kv => dictSet acc kv.1 kv.2) e

/-- `AWSContext.__enter__`: if credentials were resolved, export them (and
the region, when non-empty) into the environment and drop `AWS_PROFILE`;
otherwise leave the environment untouched. -/
def aws_enter (creds : Option CredPkg) (region : String) (env : Env) : Env :=
  match creds with
  | none => env
  | some c =>
    let e1 := dictSet env "AWS_ACCESS_KEY_ID" c.accessKeyId
    let e2 := dictSet e1 "AWS_SECRET_ACCESS_KEY" c.secretAccessKey
    let e3 := dictSet e2 "AWS_SESSION_TOKEN" c.sessionToken
    let e4 :=
      if region == "" then e3
      else dictSet (dictSet e3 "AWS_DEFAULT_REGION" region) "AWS_REGION" region
    dictErase e4 "AWS_PROFILE"

/-- `AWSContext.__exit__`: `os.environ.clear()` then
`os.environ.update(old_env)`, whatever the current environment is. -/
def aws_exit (old_env : Env) (cur : Env) : Env :=
  env_update (env_clear cur) old_env

/-- A `with AWSContext(cluster_id): body` block: capture the environment,
enter, run the body (which may read and write the environment and either
return normally or raise, modelled by `Except`), and exit on either path. -/
def aws_context_run {ε α : Type} (creds : Option CredPkg) (region : String)
    (env : Env) (body : Env → Except ε α × Env) : Except ε α × Env :=
  let old_env := env
  let entered := aws_enter creds region env
  let res := body entered
  (res.1, aws_exit old_env res.2)

/-- The stats cache key is the cluster id; the statuses cache key is
`f"{cluster_id}_{ui_name}"`. -/
def status_key (cluster_id ui_name : String) : String :=
  cluster_id ++ "_" ++ ui_name

/-- The "Online" stats fragment of `get_cluster_stats`. -/
def cluster_stats_html (st : ClusterStats) : String :=
  "<div class=\"d-flex justify-content-between mt-3\"><span class=\"badge bg-success bg-opacity-10 text-success border border-success\">Online</span><span class=\"small fw-bold text-dark\">"
    ++ st.git_version
    ++ "</span></div><div class=\"mt-2 small text-muted\">Nodes: <strong>"
    ++ toString st.nodes ++ "</strong></div>"

/-- The "Offline" fragment returned by `get_cluster_stats` on any failure. -/
def offline_html : String :=
  "<div class=\"alert alert-danger py-1 px-2 mt-2 mb-0 small\">Offline</div>"

/-- The fragment for a cluster id absent from the registry. -/
def config_missing_html : String := "<div>Config Missing</div>"

/-- The placeholder cell for a service not mapped on this cluster. -/
def dash_fragment : String :=
  "<td class=\"status-cell align-middle\"><span class=\"text-muted opacity-25\">-</span></td>"

/-- The generic Error badge returned by `get_k8s_status` on any failure. -/
def error_fragment : String :=
  "<td class=\"status-cell align-middle\"><span class=\"badge bg-danger bg-opacity-10 text-danger border border-danger\">Error</span></td>"

/-- The successful status cell of `get_k8s_status`. -/
def status_fragment (cluster_id ui_name : String) (ts : Nat) (dep : Deployment)
    (tag : List Char) (ns : String) : String :=
  let image := String.mk dep.image
  let ready := pyStrOptNat dep.ready_replicas ++ "/" ++ pyStrOptNat dep.replicas
  let content :=
    "<div style=\"cursor: pointer;\" hx-get=\"/api/describe/" ++ cluster_id ++ "/"
      ++ ui_name ++ "?t=" ++ toString ts
      ++ "\" hx-target=\"#modal-container\" hx-swap=\"innerHTML\"><div class=\"d-flex flex-column\"><span class=\"badge bg-light text-dark border text-truncate\" style=\"max-width: 150px;\" title=\""
      ++ image ++ "\">" ++ String.mk tag
      ++ "</span><span class=\"small text-success mt-1\">Ready: " ++ ready
      ++ "</span></div></div>"
  "<td class=\"status-cell align-middle\">" ++ content
    ++ "<div class=\"text-muted\" style=\"font-size: 0.65rem;\">" ++ ns ++ "</div></td>"

/-- Embedding of the `/api/cluster-stats/{cluster_id}` route.

`probe` is the outcome of the `with AWSContext: version/node-count` block
(`Except.error` = any exception reaching the `except`).  Returns the
response fragment and the post-state. -/
def get_cluster_stats (cluster_id : String) (probe : Except UpstreamErr ClusterStats)
    (s : AppState) : String × AppState :=
  match s.cache.stats.lookup cluster_id with
  | some html => (html, s)
  | none =>
    match s.db.clusters.find? (fun c => c.id == cluster_id) with
    | none => (config_missing_html, s)
    | some _ =>
      match probe with
      | Except.ok st =>
        let html := cluster_stats_html st
        (html, { s with cache := { s.cache with stats := dictSet s.cache.stats cluster_id html } })
      | Except.error _ => (offline_html, s)

/-- Embedding of the `/api/status/{cluster_id}/{ui_name}` route.

`probe` is the outcome of the `with AWSContext: read_namespaced_deployment`
block.  The tag derivation `shortImage` runs inside the same `try`, so its
failure also lands in the Error branch. -/
def get_k8s_status (cluster_id ui_name : String) (ts : Nat)
    (probe : Except UpstreamErr Deployment) (s : AppState) : String × AppState :=
  let key := status_key cluster_id ui_name
  match s.cache.statuses.lookup key with
  | some html => (html, s)
  | none =>
    match s.db.services.find? (fun sv => sv.ui_name == ui_name) with
    | none => (dash_fragment, s)
    | some sv =>
      match sv.clusters.lookup cluster_id with
      | none => (dash_fragment, s)
      | some details =>
        match probe with
        | Except.error _ => (error_fragment, s)
        | Except.ok dep =>
          match shortImage dep.image with
          | none => (error_fragment, s)
          | some tag =>
            let final := status_fragment cluster_id ui_name ts dep tag details.namespace'
            (final,
             { s with cache :=
                { s.cache with statuses := dictSet s.cache.statuses key final } })

/-- `alias.lower().replace(" ", "-")` (ASCII lowering). -/
def py_lower_replace (alias_name : String) : String :=
  String.mk ((alias_name.data.map Char.toLower).map (fun c => if c = ' ' then '-' else c))

/-- Embedding of the `/add-cluster` route (the upload of the kubeconfig
file to `path` is a filesystem side effect outside the state). -/
def add_cluster (alias_name path : String) (s : AppState) : AppState :=
  { s with db :=
     { s.db with clusters :=
        s.db.clusters ++ [{ id := py_lower_replace alias_name,
                            alias_name := alias_name, config_path := path }] } }

/-- Embedding of the `/delete-cluster` route: it filters the cluster list
and saves; it touches neither the services list nor `CACHE` (the
`os.remove` of the config file is a filesystem side effect). -/
def delete_cluster (cluster_id : String) (s : AppState) : AppState :=
  { s with db :=
     { s.db with clusters := s.db.clusters.filter (fun c => c.id != cluster_id) } }

/-- Replace the first element satisfying `p` (in-place mutation of the
object found by `next(...)` in the source). -/
def replaceFirst {α : Type} (p : α → Bool) (new : α) : List α → List α
  | [] => []
  | x :: xs => if p x then new :: xs else x :: replaceFirst p new xs

/-- Embedding of the `/unmap-service` route. -/
def unmap_service (cluster_id ui_name : String) (s : AppState) : AppState :=
  let db' :=
    match s.db.services.find? (fun x => x.ui_name == ui_name) with
    | some sv =>
      if (sv.clusters.lookup cluster_id).isSome then
        let sv' : Service := { sv with clusters := dictErase sv.clusters cluster_id }
        if sv'.clusters.isEmpty then
          { s.db with services := s.db.services.filter (fun x => x.ui_name != ui_name) }
        else
          { s.db with services := replaceFirst (fun x => x.ui_name == ui_name) sv' s.db.services }
      else s.db
    | none => s.db
  { s with db := db',
           cache := { s.cache with
              statuses := dictErase s.cache.statuses (status_key cluster_id ui_name) } }

/-- Embedding of the `/import-bulk` route: `items` is the list of selected
(deployment name, submitted ui name) pairs for cluster `c_id` and
namespace `ns`.  Ends by clearing the whole statuses cache. -/
def import_bulk (c_id ns : String) (items : List (String × String)) (s : AppState) :
    AppState :=
  let db' := items.foldl (fun acc item =>
    let ui := item.2.trim
    if ui == "" then acc
    else
      let entry : Binding := { deployment := item.1, namespace' := ns }
      match acc.services.find? (fun sv => sv.ui_name == ui) with
      | some sv =>
        let sv2 : Service := { sv with clusters := dictSet sv.clusters c_id entry }
        { acc with services := replaceFirst (fun x => x.ui_name == ui) sv2 acc.services }
      | none =>
        { acc with services := acc.services ++ [{ ui_name := ui, clusters := [(c_id, entry)] }] })
    s.db
  { s with db := db', cache := { s.cache with statuses := [] } }

/-- Embedding of the `/refresh-all` route. -/
def refresh_all (now : Nat) (s : AppState) : AppState :=
  { s with cache := { stats := [], statuses := [], timestamp := now } }

/-- Embedding of the `/auth/sso/login` route (`final_login`). -/
def final_login (access_token region role_name : String) (s : AppState) : AppState :=
  { s with sso := { access_token := some access_token, region := region,
                    role_name := some role_name, cred_cache := [] } }

/-- Embedding of the `/auth/logout` route: only the access token is
cleared. -/
def logout (s : AppState) : AppState :=
  { s with sso := { s.sso with access_token := none } }

/-- The fixed alternatives of the variant-suffix regular expression
`-(blue|green|canary|prod|dev|staging|v\d+)$`, each with its leading dash. -/
def fixedSuffixes : List (List Char) :=
  ["-blue".data, "-green".data, "-canary".data, "-prod".data, "-dev".data, "-staging".data]

/-- Membership in the fixed alternatives. -/
def isFixedSuffix (s : List Char) : Bool :=
  decide (s ∈ fixedSuffixes)

/-- The `-v<digits>` alternative: a dash, a `v`, then one or more digits. -/
def isVSuffix (s : List Char) : Bool :=
  match s with
  | '-' :: 'v' :: ds => !ds.isEmpty && ds.all Char.isDigit
  | _ => false

/-- A string matched by the whole variant-suffix pattern. -/
def isVariantSuffix (s : List Char) : Bool :=
  isFixedSuffix s || isVSuffix s

/-- `re.sub(r'-(blue|green|canary|prod|dev|staging|v\d+)$', '', d)`: the
regex engine scans start positions left to right, and a match must end at
the end of the string, so the substitution removes the suffix beginning at
the leftmost position whose remainder matches the pattern (there is at
most one such position, see `variant_suffix_unique`); with no match the
string is returned unchanged. -/
def stripVariant (d : List Char) : List Char :=
  match (List.range (d.length + 1)).find? (fun i => isVariantSuffix (d.drop i)) with
  | some i => d.take i
  | none => d

/-- Embedding of `guess_ui_name(deployment_name, existing_names)`:
exact match first, then the longest `startswith` match (Python `max` with
`key=len` keeps the first maximum), then the regex suffix strip. -/
def guess_ui_name (deployment_name : List Char) (existing_names : List (List Char)) :
    List Char :=
  if deployment_name ∈ existing_names then deployment_name
  else
    match existing_names.filter (fun name => name.isPrefixOf deployment_name) with
    | [] => stripVariant deployment_name
    | m :: ms =>
      ms.foldl (fun best x => if best.length < x.length then x else best) m

theorem isVSuffix_iff (s : List Char) :
    isVSuffix s = true ↔
      ∃ ds, ds ≠ [] ∧ ds.all Char.isDigit = true ∧ s = '-' :: 'v' :: ds := by
  constructor
  · intro h
    unfold isVSuffix at h
    split at h
    · next ds =>
      obtain ⟨h1, h2⟩ := Bool.and_eq_true _ _ ▸ h
      refine ⟨ds, ?_, h2, rfl⟩
      intro hds
      subst hds
      simp at h1
    · exact absurd h (by simp)
  · rintro ⟨ds, hne, hdig, rfl⟩
    unfold isVSuffix
    cases ds with
    | nil => exact absurd rfl hne
    | cons a t => simp_all

theorem variant_starts_dash (s : List Char) (h : isVariantSuffix s = true) :
    ∃ r, s = '-' :: r := by
  rcases Bool.or_eq_true _ _ ▸ h with hf | hv
  · have hmem : s ∈ fixedSuffixes := of_decide_eq_true hf
    simp only [fixedSuffixes, List.mem_cons, List.not_mem_nil, or_false] at hmem
    rcases hmem with rfl | rfl | rfl | rfl | rfl | rfl
    · exact ⟨"blue".data, by decide⟩
    · exact ⟨"green".data, by decide⟩
    · exact ⟨"canary".data, by decide⟩
    · exact ⟨"prod".data, by decide⟩
    · exact ⟨"dev".data, by decide⟩
    · exact ⟨"staging".data, by decide⟩
  · obtain ⟨ds, _, _, rfl⟩ := (isVSuffix_iff s).mp hv
    exact ⟨'v' :: ds, rfl⟩

/-- No fixed alternative has a dash after its first character. -/
theorem fixed_no_inner_dash :
    fixedSuffixes.all (fun t => decide ('-' ∉ t.drop 1)) = true := by decide

/-- At most one suffix of a string matches the variant pattern: a variant
suffix of a variant suffix is the whole thing.  This is what makes the
anchored `re.sub` unambiguous. -/
theorem variant_suffix_unique (s t : List Char) (hs : isVariantSuffix s = true)
    (ht : isVariantSuffix t = true) (hsub : s <:+ t) : s = t := by
  obtain ⟨u, hu⟩ := hsub
  cases u with
  | nil => simpa using hu
  | cons a u₂ =>
    exfalso
    obtain ⟨s₂, rfl⟩ := variant_starts_dash s hs
    rcases Bool.or_eq_true _ _ ▸ ht with hf | hv
    · -- t is a fixed alternative, but has a dash at a positive position
      have hmem : t ∈ fixedSuffixes := of_decide_eq_true hf
      have hnd : '-' ∉ t.drop 1 := by
        have := List.all_eq_true.mp fixed_no_inner_dash t hmem
        exact of_decide_eq_true this
      apply hnd
      have : t.drop 1 = u₂ ++ '-' :: s₂ := by
        rw [← hu]
        rfl
      rw [this]
      exact List.mem_append_right u₂ (List.mem_cons_self _ _)
    · -- t = '-' :: 'v' :: digits, but a dash would sit among the digits
      obtain ⟨ds, hne, hdig, rfl⟩ := (isVSuffix_iff t).mp hv
      have hu' : a :: (u₂ ++ '-' :: s₂) = '-' :: 'v' :: ds := by
        rw [← hu]
        rfl
      obtain ⟨ha, hrest⟩ : a = '-' ∧ u₂ ++ '-' :: s₂ = 'v' :: ds := by
        constructor
        · exact (List.cons.injEq _ _ _ _ ▸ hu').1
        · exact (List.cons.injEq _ _ _ _ ▸ hu').2
      cases u₂ with
      | nil =>
        simp only [List.nil_append] at hrest
        have : '-' = 'v' := (List.cons.injEq _ _ _ _ ▸ hrest).1
        exact absurd this (by decide)
      | cons b u₃ =>
        have hb : b = 'v' ∧ u₃ ++ '-' :: s₂ = ds := by
          constructor
          · exact (List.cons.injEq _ _ _ _ ▸ hrest).1
          · exact (List.cons.injEq _ _ _ _ ▸ hrest).2
        have hmemds : '-' ∈ ds := by
          rw [← hb.2]
          exact List.mem_append_right u₃ (List.mem_cons_self _ _)
        have := List.all_eq_true.mp hdig '-' hmemds
        exact absurd this (by decide)

/-- Dropping at two positions ≤ the length gives variant suffixes only at
one position. -/
theorem variant_index_unique (d : List Char) (i j : Nat)
    (hi : isVariantSuffix (d.drop i) = true) (hj : isVariantSuffix (d.drop j) = true)
    (hile : i ≤ d.length) (hjle : j ≤ d.length) : i = j := by
  rcases Nat.le_total i j with h | h
  · have hdd : d.drop j = (d.drop i).drop (j - i) := by
      rw [List.drop_drop]
      congr 1
      omega
    have hsub : d.drop j <:+ d.drop i := hdd ▸ List.drop_suffix (j - i) (d.drop i)
    have heq := variant_suffix_unique (d.drop j) (d.drop i) hj hi hsub
    have hlen := congrArg List.length heq
    simp only [List.length_drop] at hlen
    omega
  · have hdd : d.drop i = (d.drop j).drop (i - j) := by
      rw [List.drop_drop]
      congr 1
      omega
    have hsub : d.drop i <:+ d.drop j := hdd ▸ List.drop_suffix (i - j) (d.drop j)
    have heq := variant_suffix_unique (d.drop i) (d.drop j) hi hj hsub
    have hlen := congrArg List.length heq
    simp only [List.length_drop] at hlen
    omega

/-- When `d = pre ++ sfx` with `sfx` matching the variant pattern, the
regex substitution strips exactly that suffix. -/
theorem stripVariant_decomp (pre sfx : List Char) (h : isVariantSuffix sfx = true) :
    stripVariant (pre ++ sfx) = pre := by
  have hlen : (pre ++ sfx).length = pre.length + sfx.length := List.length_append pre sfx
  have hpred : isVariantSuffix ((pre ++ sfx).drop pre.length) = true := by
    rw [List.drop_left]
    exact h
  have hmemr : pre.length ∈ List.range ((pre ++ sfx).length + 1) :=
    List.mem_range.mpr (by omega)
  unfold stripVariant
  cases hf : (List.range ((pre ++ sfx).length + 1)).find?
      (fun i => isVariantSuffix ((pre ++ sfx).drop i)) with
  | none =>
    exact absurd hpred (List.find?_eq_none.mp hf pre.length hmemr)
  | some j =>
    have hj : isVariantSuffix ((pre ++ sfx).drop j) = true := by
      simpa using List.find?_some hf
    have hjle : j ≤ (pre ++ sfx).length :=
      Nat.lt_succ_iff.mp (List.mem_range.mp (List.mem_of_find?_eq_some hf))
    have hje : j = pre.length :=
      variant_index_unique (pre ++ sfx) j pre.length hj hpred hjle (by omega)
    rw [hje]
    exact List.take_left pre sfx

/-- With no decomposition into a variant suffix, the substitution is the
identity. -/
theorem stripVariant_no_match (d : List Char)
    (h : ∀ pre sfx, isVariantSuffix sfx = true → d ≠ pre ++ sfx) :
    stripVariant d = d := by
  unfold stripVariant
  cases hf : (List.range (d.length + 1)).find? (fun i => isVariantSuffix (d.drop i)) with
  | none => rfl
  | some j =>
    exfalso
    have hj : isVariantSuffix (d.drop j) = true := by
      simpa using List.find?_some hf
    exact h (d.take j) (d.drop j) hj (List.take_append_drop j d).symm

/-- Python `max(l, key=len)` over `m :: ms` (first maximum wins) is a
member of the list. -/
theorem pymax_mem (ms : List (List Char)) :
    ∀ m : List Char,
      ms.foldl (fun best x => if best.length < x.length then x else best) m ∈ m :: ms := by
  induction ms with
  | nil => intro m; simp
  | cons a t ih =>
    intro m
    simp only [List.foldl_cons]
    rcases List.mem_cons.mp (ih (if m.length < a.length then a else m)) with h | h
    · rw [h]
      by_cases hc : m.length < a.length
      · simp [hc]
      · simp [hc]
    · exact List.mem_cons_of_mem m (List.mem_cons_of_mem a h)

/-- Python `max(l, key=len)` over `m :: ms` has maximal length. -/
theorem pymax_ge (ms : List (List Char)) :
    ∀ m u : List Char, u ∈ m :: ms →
      u.length ≤ (ms.foldl (fun best x => if best.length < x.length then x else best) m).length := by
  induction ms with
  | nil =>
    intro m u hu
    simp at hu
    simp [hu]
  | cons a t ih =>
    intro m u hu
    simp only [List.foldl_cons]
    have hm : m.length ≤ (if m.length < a.length then a else m).length := by
      by_cases hc : m.length < a.length
      · simp [hc]
        omega
      · simp [hc]
    have ha : a.length ≤ (if m.length < a.length then a else m).length := by
      by_cases hc : m.length < a.length
      · simp [hc]
      · simp [hc]
        omega
    have hstep := ih (if m.length < a.length then a else m)
    rcases List.mem_cons.mp hu with h | h
    · subst h
      exact le_trans hm (hstep _ (List.mem_cons_self _ _))
    · rcases List.mem_cons.mp h with h' | h'
      · subst h'
        exact le_trans ha (hstep _ (List.mem_cons_self _ _))
      · exact hstep u (List.mem_cons_of_mem _ h')

/-- C9 (confirmed): `guess_ui_name` — (1) a deployment name already in use
is returned unchanged; (2) otherwise, when some used name is a prefix of
the deployment name, the result is a used name, a prefix of the deployment
name, and of maximal length among all such used names (prefixes of a fixed
string of equal maximal length coincide, so it is "the longest such
member"); (3) otherwise a trailing variant suffix
`-(blue|green|canary|prod|dev|staging|v<digits>)` is stripped exactly
once; (4) with no such suffix the name is returned unchanged. -/
theorem c9_guess_ui_name (d : List Char) (U : List (List Char)) :
    (d ∈ U → guess_ui_name d U = d) ∧
    (d ∉ U → (∃ u ∈ U, u.isPrefixOf d = true) →
      guess_ui_name d U ∈ U ∧ (guess_ui_name d U).isPrefixOf d = true ∧
        ∀ u ∈ U, u.isPrefixOf d = true → u.length ≤ (guess_ui_name d U).length) ∧
    (d ∉ U → (∀ u ∈ U, u.isPrefixOf d = false) →
      ∀ pre sfx, isVariantSuffix sfx = true → d = pre ++ sfx →
        guess_ui_name d U = pre) ∧
    (d ∉ U → (∀ u ∈ U, u.isPrefixOf d = false) →
      (∀ pre sfx, isVariantSuffix sfx = true → d ≠ pre ++ sfx) →
        guess_ui_name d U = d) := by
  refine ⟨?_, ?_, ?_, ?_⟩
  · intro hmem
    simp [guess_ui_name, hmem]
  · intro hnm hex
    have hne : U.filter (fun name => name.isPrefixOf d) ≠ [] := by
      obtain ⟨u, hu, hp⟩ := hex
      intro hcon
      have := List.filter_eq_nil_iff.mp hcon u hu
      rw [hp] at this
      exact this rfl
    cases hflt : U.filter (fun name => name.isPrefixOf d) with
    | nil => exact absurd hflt hne
    | cons m ms =>
      have hg : guess_ui_name d U =
          ms.foldl (fun best x => if best.length < x.length then x else best) m := by
        simp only [guess_ui_name, if_neg hnm, hflt]
      have hmem2 := pymax_mem ms m
      rw [← hflt] at hmem2
      have hmem3 := List.mem_filter.mp hmem2
      refine ⟨hg ▸ hmem3.1, hg ▸ hmem3.2, ?_⟩
      intro u hu hp
      have humem : u ∈ m :: ms := by
        rw [← hflt]
        exact List.mem_filter.mpr ⟨hu, hp⟩
      rw [hg]
      exact pymax_ge ms m u humem
  · intro hnm hnone pre sfx hv hdec
    have hflt : U.filter (fun name => name.isPrefixOf d) = [] := by
      apply List.filter_eq_nil_iff.mpr
      intro u hu
      rw [hnone u hu]
      simp
    have hg : guess_ui_name d U = stripVariant d := by
      simp only [guess_ui_name, if_neg hnm, hflt]
    rw [hg, hdec]
    exact stripVariant_decomp pre sfx hv
  · intro hnm hnone hno
    have hflt : U.filter (fun name => name.isPrefixOf d) = [] := by
      apply List.filter_eq_nil_iff.mpr
      intro u hu
      rw [hnone u hu]
      simp
    have hg : guess_ui_name d U = stripVariant d := by
      simp only [guess_ui_name, if_neg hnm, hflt]
    rw [hg]
    exact stripVariant_no_match d hno

/-- C9 witness: the theorem applied at concrete inputs — `"app"` with used
set `{"app"}` is returned unchanged, and `"app-blue"` with no used names
has its `-blue` suffix stripped. -/
theorem c9_guess_ui_name_witness :
    guess_ui_name ("app".data) ["app".data] = "app".data ∧
      guess_ui_name ("app-blue".data) [] = "app".data := by
  constructor
  · exact (c9_guess_ui_name ("app".data) ["app".data]).1 (by decide)
  · exact (c9_guess_ui_name ("app-blue".data) []).2.2.1 (by decide) (by simp)
      ("app".data) ("-blue".data) (by decide) (by decide)

/-- Setting a key absent from a dict appends it. -/
theorem dictSet_append {β : Type} (e : List (String × β)) (k : String) (v : β)
    (h : k ∉ e.map Prod.fst) : dictSet e k v = e ++ [(k, v)] := by
  induction e with
  | nil => rfl
  | cons hd t ih =>
    obtain ⟨k₁, v₁⟩ := hd
    have h1 : ¬(k₁ = k) := by
      intro hk
      exact h (by simp [hk])
    have h2 : k ∉ t.map Prod.fst := fun hm => h (by simp [hm])
    simp [dictSet, h1, ih h2]

/-- `update` of a dict with duplicate-free keys into a disjoint
accumulator concatenates. -/
theorem env_update_disjoint (l : Env) :
    ∀ acc : Env, (l.map Prod.fst).Nodup →
      (∀ k, k ∈ acc.map Prod.fst → k ∉ l.map Prod.fst) →
      env_update acc l = acc ++ l := by
  induction l with
  | nil =>
    intro acc _ _
    simp [env_update]
  | cons hd t ih =>
    intro acc hn hd2
    obtain ⟨k, v⟩ := hd
    have hk : k ∉ acc.map Prod.fst := by
      intro hmem
      exact hd2 k hmem (by simp)
    have hkt : k ∉ t.map Prod.fst := by
      simp only [List.map_cons, List.nodup_cons] at hn
      exact hn.1
    have hnt : (t.map Prod.fst).Nodup := by
      simp only [List.map_cons, List.nodup_cons] at hn
      exact hn.2
    have hstep : env_update acc ((k, v) :: t) = env_update (dictSet acc k v) t := by
      simp [env_update]
    rw [hstep, dictSet_append acc k v hk]
    rw [ih (acc ++ [(k, v)]) hnt ?_]
    · simp
    · intro k' hk'
      simp only [List.map_append, List.mem_append, List.map_cons] at hk'
      rcases hk' with h' | h'
      · intro hmem
        exact hd2 k' h' (by simp [hmem])
      · simp at h'
        subst h'
        exact hkt

/-- `clear()` then `update(old_env)` restores exactly `old_env`. -/
theorem aws_exit_restores (old_env cur : Env) (h : (old_env.map Prod.fst).Nodup) :
    aws_exit old_env cur = old_env := by
  unfold aws_exit env_clear
  rw [env_update_disjoint old_env [] h (by simp)]
  simp

/-- C5 (confirmed): for every credential outcome, region, starting
environment with duplicate-free keys, and body — whether it returns
normally or raises (`Except.error`), and whatever it does to the
environment — the environment after the `with AWSContext` block equals
exactly the one captured before activation; and with no credentials the
activation itself is a no-op on the environment. -/
theorem c5_aws_context_restores (ε α : Type) (creds : Option CredPkg)
    (region : String) (env : Env) (body : Env → Except ε α × Env)
    (h : (env.map Prod.fst).Nodup) :
    (aws_context_run creds region env body).2 = env ∧
      aws_enter none region env = env := by
  constructor
  · unfold aws_context_run
    exact aws_exit_restores env _ h
  · rfl

/-- C5 witness: the theorem applied at a concrete environment and a body
that raises after mutating the environment. -/
theorem c5_aws_context_restores_witness :
    (aws_context_run (some { accessKeyId := "AKIA", secretAccessKey := "SECRET",
                             sessionToken := "TOK", expiration := 99 })
        "us-east-1" [("PATH", "/usr/bin"), ("HOME", "/root")]
        (fun e => ((Except.error 7 : Except Nat Unit), dictSet e "LEFTOVER" "yes"))).2 =
      [("PATH", "/usr/bin"), ("HOME", "/root")] ∧
    aws_enter none "us-east-1" [("PATH", "/usr/bin"), ("HOME", "/root")] =
      [("PATH", "/usr/bin"), ("HOME", "/root")] :=
  c5_aws_context_restores Nat Unit
    (some { accessKeyId := "AKIA", secretAccessKey := "SECRET",
            sessionToken := "TOK", expiration := 99 })
    "us-east-1" [("PATH", "/usr/bin"), ("HOME", "/root")]
    (fun e => ((Except.error 7 : Except Nat Unit), dictSet e "LEFTOVER" "yes"))
    (by decide)

/-- C4 (confirmed): with an active session and resolvable account id —
(1) a cached entry whose expiration is strictly in the future is returned
unchanged, without invoking the exchange and without touching the state;
(2) otherwise the exchange is invoked (exactly once per resolution, the
code contains a single call site, recorded by the `true` flag); on success
the new entry replaces the cached one and is returned; (3) on exchange
failure the result is NotAvailable (`none`) and the state — including any
stale cache entry — is left exactly in place. -/
theorem c4_credential_policy
    (extract : String → Option String)
    (exchange : String → String → String → String → Except Unit CredPkg)
    (now : Nat) (cluster_id : String) (s : AppState)
    (tok : String) (cluster : Cluster) (account_id : String)
    (htok : s.sso.access_token = some tok) (hne : tok ≠ "")
    (hfind : s.db.clusters.find? (fun c => c.id == cluster_id) = some cluster)
    (hext : extract cluster.config_path = some account_id) :
    (∀ cached, s.sso.cred_cache.lookup account_id = some cached →
        now < cached.expiration →
        get_cluster_credentials extract exchange now cluster_id s =
          (some cached, s, false)) ∧
    (∀ pkg,
        (∀ cached, s.sso.cred_cache.lookup account_id = some cached →
            cached.expiration ≤ now) →
        exchange (effective_role s.sso) account_id tok s.sso.region = Except.ok pkg →
        get_cluster_credentials extract exchange now cluster_id s =
          (some pkg,
           { s with sso :=
              { s.sso with cred_cache := dictSet s.sso.cred_cache account_id pkg } },
           true)) ∧
    ((∀ cached, s.sso.cred_cache.lookup account_id = some cached →
         cached.expiration ≤ now) →
        exchange (effective_role s.sso) account_id tok s.sso.region = Except.error () →
        get_cluster_credentials extract exchange now cluster_id s = (none, s, true)) := by
  have hbeq : (tok == "") = false := beq_eq_false_iff_ne.mpr hne
  refine ⟨?_, ?_, ?_⟩
  · intro cached hc hlt
    simp only [get_cluster_credentials, htok, hbeq, hfind, hext, hc, if_pos hlt,
      Bool.false_eq_true, if_false]
  · intro pkg hstale hex
    cases hc : s.sso.cred_cache.lookup account_id with
    | none =>
      simp only [get_cluster_credentials, htok, hbeq, hfind, hext, hc, hex,
        Bool.false_eq_true, if_false]
    | some cached =>
      have hle : ¬(now < cached.expiration) := by
        have := hstale cached hc
        omega
      simp only [get_cluster_credentials, htok, hbeq, hfind, hext, hc, if_neg hle, hex,
        Bool.false_eq_true, if_false]
  · intro hstale herr
    cases hc : s.sso.cred_cache.lookup account_id with
    | none =>
      simp only [get_cluster_credentials, htok, hbeq, hfind, hext, hc, herr,
        Bool.false_eq_true, if_false]
    | some cached =>
      have hle : ¬(now < cached.expiration) := by
        have := hstale cached hc
        omega
      simp only [get_cluster_credentials, htok, hbeq, hfind, hext, hc, if_neg hle, herr,
        Bool.false_eq_true, if_false]

/-- The concrete state used by the C4 witness: one cluster, an active
session, and a cached credential for account 111 expiring at instant 100. -/
def s_c4 : AppState :=
  { db := { clusters := [{ id := "c1", alias_name := "c1", config_path := "configs/c1" }],
            services := [] },
    cache := { stats := [], statuses := [], timestamp := 0 },
    sso := { access_token := some "tok", region := "us-east-1",
             role_name := some "Admin",
             cred_cache := [("111", { accessKeyId := "A", secretAccessKey := "S",
                                      sessionToken := "T", expiration := 100 })] } }

/-- C4 witness: at time 10 the cached entry (expiring at 100) is returned
unchanged, without invoking an exchange that would fail. -/
theorem c4_credential_policy_witness :
    get_cluster_credentials (fun _ => some "111")
        (fun _ _ _ _ => Except.error ()) 10 "c1" s_c4 =
      (some { accessKeyId := "A", secretAccessKey := "S",
              sessionToken := "T", expiration := 100 }, s_c4, false) :=
  (c4_credential_policy (fun _ => some "111") (fun _ _ _ _ => Except.error ())
      10 "c1" s_c4 "tok"
      { id := "c1", alias_name := "c1", config_path := "configs/c1" } "111"
      rfl (by decide) (by decide) rfl).1
    { accessKeyId := "A", secretAccessKey := "S", sessionToken := "T", expiration := 100 }
    (by decide) (by decide)

/-- Concrete state: cluster `c1` registered, both caches empty. -/
def s_c1 : AppState :=
  { db := { clusters := [{ id := "c1", alias_name := "c1", config_path := "configs/c1" }],
            services := [] },
    cache := { stats := [], statuses := [], timestamp := 0 },
    sso := { access_token := none, region := "us-east-1", role_name := none,
             cred_cache := [] } }

/-- C1 counterexample: a failing stats probe for registered cluster `c1`
returns the Offline fragment but does NOT store it (nor anything) under
its cache key, so the next request probes the cluster again — refuting
"the result fragment is written to the response cache unconditionally,
including error-shaped fragments". -/
theorem c1_counterexample :
    (get_cluster_stats "c1" (Except.error UpstreamErr.exn) s_c1).1 = offline_html ∧
    (get_cluster_stats "c1" (Except.error UpstreamErr.exn) s_c1).2.cache.stats.lookup "c1"
      = none := by
  constructor
  · decide
  · decide

/-- C1 (corrected): only fragments produced by a fully successful probe are
written to the cache; every failure-shaped fragment (Offline, Error,
Config Missing, the unmapped dash) is returned without being cached, so a
repeated request after a failure contacts the cluster again, while cached
(successful) fragments are served without consulting the probe until an
explicit invalidation. -/
theorem c1_amended_cache_policy (cid uiname : String) (ts : Nat) (s : AppState)
    (st : ClusterStats) (e : UpstreamErr) (dep : Deployment) :
    (s.cache.stats.lookup cid = none →
      ∀ cl, s.db.clusters.find? (fun c => c.id == cid) = some cl →
        (get_cluster_stats cid (Except.ok st) s).2.cache.stats.lookup cid =
          some (cluster_stats_html st)) ∧
    ((get_cluster_stats cid (Except.error e) s).2 = s) ∧
    (∀ h, s.cache.stats.lookup cid = some h →
      ∀ pr, get_cluster_stats cid pr s = (h, s)) ∧
    ((get_k8s_status cid uiname ts (Except.error e) s).2 = s) ∧
    (∀ h, s.cache.statuses.lookup (status_key cid uiname) = some h →
      ∀ pr, get_k8s_status cid uiname ts pr s = (h, s)) ∧
    (s.cache.statuses.lookup (status_key cid uiname) = none →
      ∀ sv det tag, s.db.services.find? (fun x => x.ui_name == uiname) = some sv →
        sv.clusters.lookup cid = some det → shortImage dep.image = some tag →
        (get_k8s_status cid uiname ts (Except.ok dep) s).2.cache.statuses.lookup
            (status_key cid uiname) =
          some (status_fragment cid uiname ts dep tag det.namespace')) := by
  refine ⟨?_, ?_, ?_, ?_, ?_, ?_⟩
  · intro hmiss cl hfind
    simp only [get_cluster_stats, hmiss, hfind]
    exact lookup_dictSet_self s.cache.stats cid (cluster_stats_html st)
  · cases hl : s.cache.stats.lookup cid with
    | some h => simp only [get_cluster_stats, hl]
    | none =>
      cases hf : s.db.clusters.find? (fun c => c.id == cid) with
      | none => simp only [get_cluster_stats, hl, hf]
      | some cl => simp only [get_cluster_stats, hl, hf]
  · intro h hl pr
    simp only [get_cluster_stats, hl]
  · cases hl : s.cache.statuses.lookup (status_key cid uiname) with
    | some h => simp only [get_k8s_status, hl]
    | none =>
      cases hf : s.db.services.find? (fun x => x.ui_name == uiname) with
      | none => simp only [get_k8s_status, hl, hf]
      | some sv =>
        cases hc : sv.clusters.lookup cid with
        | none => simp only [get_k8s_status, hl, hf, hc]
        | some det => simp only [get_k8s_status, hl, hf, hc]
  · intro h hl pr
    simp only [get_k8s_status, hl]
  · intro hmiss sv det tag hfsv hlc hsi
    simp only [get_k8s_status, hmiss, hfsv, hlc, hsi]
    exact lookup_dictSet_self s.cache.statuses (status_key cid uiname)
      (status_fragment cid uiname ts dep tag det.namespace')

/-- C1 witness: on a cache miss for registered `c1`, a successful probe
result is stored under the cluster's key. -/
theorem c1_amended_cache_policy_witness :
    (get_cluster_stats "c1" (Except.ok { git_version := "v1.29.0", nodes := 3 }) s_c1).2.cache.stats.lookup "c1" =
      some (cluster_stats_html { git_version := "v1.29.0", nodes := 3 }) :=
  (c1_amended_cache_policy "c1" "svc" 0 s_c1 { git_version := "v1.29.0", nodes := 3 }
      UpstreamErr.exn { image := "x".data, ready_replicas := none, replicas := none }).1
    (by decide) { id := "c1", alias_name := "c1", config_path := "configs/c1" } (by decide)

/-- Concrete state: clusters `c1` and `c2`, service `svc-a` bound only on
`c1`. -/
def s_c2 : AppState :=
  { db := { clusters := [{ id := "c1", alias_name := "c1", config_path := "p1" },
                         { id := "c2", alias_name := "c2", config_path := "p2" }],
            services := [{ ui_name := "svc-a",
                           clusters := [("c1", { deployment := "svc-a-blue",
                                                 namespace' := "ns1" })] }] },
    cache := { stats := [], statuses := [], timestamp := 0 },
    sso := { access_token := none, region := "us-east-1", role_name := none,
             cred_cache := [] } }

/-- C2 counterexample: deleting `c1`, the only binding of `svc-a`, leaves
`svc-a` in the registry still bound to the now-absent `c1` — no cascade,
no removal of the emptied service, and a dangling binding afterwards. -/
theorem c2_counterexample :
    (delete_cluster "c1" s_c2).db.clusters =
      [{ id := "c2", alias_name := "c2", config_path := "p2" }] ∧
    (delete_cluster "c1" s_c2).db.services =
      [{ ui_name := "svc-a",
         clusters := [("c1", { deployment := "svc-a-blue", namespace' := "ns1" })] }] := by
  constructor
  · decide
  · decide

/-- C2 (corrected): `delete_cluster` removes exactly the cluster records
with the given id and nothing else — the services list (and hence every
binding, including those referencing the deleted cluster) is left
untouched, so a service whose only binding referenced the deleted cluster
persists with a dangling binding. -/
theorem c2_amended_delete_cluster (cid : String) (s : AppState) :
    ((delete_cluster cid s).db.services = s.db.services) ∧
    (∀ c, c ∈ (delete_cluster cid s).db.clusters → c.id ≠ cid) ∧
    (∀ c, c ∈ s.db.clusters → c.id ≠ cid → c ∈ (delete_cluster cid s).db.clusters) := by
  refine ⟨rfl, ?_, ?_⟩
  · intro c hc
    have h2 := (List.mem_filter.mp hc).2
    simpa [bne_iff_ne] using h2
  · intro c hc hne
    exact List.mem_filter.mpr ⟨hc, by simpa [bne_iff_ne] using hne⟩

/-- C2 witness: the theorem applied at the concrete two-cluster state —
`c2` survives the deletion of `c1`. -/
theorem c2_amended_delete_cluster_witness :
    ({ id := "c2", alias_name := "c2", config_path := "p2" } : Cluster) ∈
      (delete_cluster "c1" s_c2).db.clusters :=
  (c2_amended_delete_cluster "c1" s_c2).2.2
    { id := "c2", alias_name := "c2", config_path := "p2" } (by decide) (by decide)

/-- Concrete state: an active session whose credential cache holds an
entry for account 111. -/
def s_c3 : AppState :=
  { db := { clusters := [{ id := "c1", alias_name := "c1", config_path := "configs/c1" }],
            services := [] },
    cache := { stats := [], statuses := [], timestamp := 0 },
    sso := { access_token := some "tok", region := "us-east-1",
             role_name := some "Admin",
             cred_cache := [("111", { accessKeyId := "A", secretAccessKey := "S",
                                      sessionToken := "T", expiration := 100 })] } }

/-- C3 counterexample: `logout` clears only the access token — the
credential-cache records survive it un-invalidated, and a resolution after
logout returns NotAvailable without invoking the exchange (so it does not
"invoke the upstream exchange again" either). -/
theorem c3_counterexample :
    (logout s_c3).sso.cred_cache =
      [("111", { accessKeyId := "A", secretAccessKey := "S",
                 sessionToken := "T", expiration := 100 })] ∧
    (get_cluster_credentials (fun _ => some "111") (fun _ _ _ _ => Except.error ())
        0 "c1" (logout s_c3)).2.2 = false := by
  constructor
  · decide
  · decide

/-- C3 (corrected): a login replacing the session clears the entire
credential cache; `logout` clears only the access token and leaves the
cached entries in place — but while logged out every resolution returns
NotAvailable before consulting the cache or the exchange, and a later
login empties the cache, so an entry cached under a prior session is still
never served. -/
theorem c3_amended_session_invalidation (s : AppState) (tok reg role cid : String)
    (extract : String → Option String)
    (exchange : String → String → String → String → Except Unit CredPkg)
    (now : Nat) :
    ((final_login tok reg role s).sso.cred_cache = []) ∧
    ((logout s).sso.access_token = none) ∧
    ((logout s).sso.cred_cache = s.sso.cred_cache) ∧
    (s.sso.access_token = none →
      get_cluster_credentials extract exchange now cid s = (none, s, false)) := by
  refine ⟨rfl, rfl, rfl, ?_⟩
  intro h
  simp only [get_cluster_credentials, h]

/-- C3 witness: resolution right after `logout` of the concrete session is
NotAvailable with no exchange call. -/
theorem c3_amended_session_invalidation_witness :
    get_cluster_credentials (fun _ => some "111") (fun _ _ _ _ => Except.error ())
        0 "c1" (logout s_c3) = (none, logout s_c3, false) :=
  (c3_amended_session_invalidation (logout s_c3) "t" "r" "ro" "c1"
      (fun _ => some "111") (fun _ _ _ _ => Except.error ()) 0).2.2.2 rfl

/-- Concrete state: cluster `c1` with a cached stats fragment. -/
def s_c6 : AppState :=
  { db := { clusters := [{ id := "c1", alias_name := "c1", config_path := "p1" }],
            services := [] },
    cache := { stats := [("c1", "<div>cached</div>")], statuses := [], timestamp := 0 },
    sso := { access_token := none, region := "us-east-1", role_name := none,
             cred_cache := [] } }

/-- C6 counterexample: `delete_cluster` completes with cluster `c1` gone
from the registry while its stats cache entry is still present — the
mutation removes no cache key before returning. -/
theorem c6_counterexample :
    (delete_cluster "c1" s_c6).cache.stats.lookup "c1" = some "<div>cached</div>" ∧
    (delete_cluster "c1" s_c6).db.clusters = [] := by
  constructor
  · decide
  · decide

/-- C6 (corrected): `delete_cluster` performs no cache invalidation at all
(the deleted cluster's entries persist until a global refresh); the
mutations that do invalidate are `unmap_service` (removes its own
`(cluster, service)` statuses key), `import_bulk` (clears the whole
statuses namespace) and `refresh_all` (clears both namespaces and bumps
the timestamp). -/
theorem c6_amended_invalidation (s : AppState) (cid uiname ns : String) (now : Nat)
    (items : List (String × String)) :
    ((delete_cluster cid s).cache = s.cache) ∧
    ((unmap_service cid uiname s).cache.statuses.lookup (status_key cid uiname) = none) ∧
    ((import_bulk cid ns items s).cache.statuses = []) ∧
    ((refresh_all now s).cache.stats = [] ∧ (refresh_all now s).cache.statuses = [] ∧
      (refresh_all now s).cache.timestamp = now) := by
  refine ⟨rfl, ?_, rfl, rfl, rfl, rfl⟩
  show (dictErase s.cache.statuses (status_key cid uiname)).lookup (status_key cid uiname)
    = none
  exact lookup_dictErase_self s.cache.statuses (status_key cid uiname)

/-- Concrete state: cluster `c1`, service `svc-a` bound on `c1`, caches
empty. -/
def s_c8 : AppState :=
  { db := { clusters := [{ id := "c1", alias_name := "c1", config_path := "p1" }],
            services := [{ ui_name := "svc-a",
                           clusters := [("c1", { deployment := "svc-a-blue",
                                                 namespace' := "ns1" })] }] },
    cache := { stats := [], statuses := [], timestamp := 0 },
    sso := { access_token := none, region := "us-east-1", role_name := none,
             cred_cache := [] } }

/-- C8 counterexample: for a mapped service, a 404-equivalent upstream
failure produces exactly the same response (the generic Error badge,
uncached) as a 500 — the code never distinguishes a NotFound condition,
refuting "NotFound is distinguished specifically (and only) when the
upstream signals a missing-resource condition". -/
theorem c8_counterexample :
    get_k8s_status "c1" "svc-a" 0 (Except.error (UpstreamErr.api 404)) s_c8 =
      get_k8s_status "c1" "svc-a" 0 (Except.error (UpstreamErr.api 500)) s_c8 ∧
    (get_k8s_status "c1" "svc-a" 0 (Except.error (UpstreamErr.api 404)) s_c8).1 =
      error_fragment := by
  constructor
  · decide
  · decide

/-- C8 (corrected): both probe routes catch every upstream failure without
propagating it and map it independently of its nature — `get_k8s_status`
answers identically for a 404-equivalent and for any other failure (the
generic Error badge on a mapped service, the unmapped dash otherwise), and
`get_cluster_stats` answers Offline (or Config Missing for an unregistered
id); no NotFound-specific outcome exists. -/
theorem c8_amended_failure_mapping (cid uiname : String) (ts : Nat)
    (e e' : UpstreamErr) (s : AppState) :
    ((get_k8s_status cid uiname ts (Except.error e) s).1 =
      (get_k8s_status cid uiname ts (Except.error e') s).1) ∧
    ((get_cluster_stats cid (Except.error e) s).1 =
      (get_cluster_stats cid (Except.error e') s).1) ∧
    (s.cache.statuses.lookup (status_key cid uiname) = none →
      (get_k8s_status cid uiname ts (Except.error e) s).1 = dash_fragment ∨
      (get_k8s_status cid uiname ts (Except.error e) s).1 = error_fragment) ∧
    (s.cache.stats.lookup cid = none →
      (get_cluster_stats cid (Except.error e) s).1 = config_missing_html ∨
      (get_cluster_stats cid (Except.error e) s).1 = offline_html) := by
  refine ⟨?_, ?_, ?_, ?_⟩
  · cases hl : s.cache.statuses.lookup (status_key cid uiname) with
    | some h => simp only [get_k8s_status, hl]
    | none =>
      cases hf : s.db.services.find? (fun x => x.ui_name == uiname) with
      | none => simp only [get_k8s_status, hl, hf]
      | some sv =>
        cases hc : sv.clusters.lookup cid with
        | none => simp only [get_k8s_status, hl, hf, hc]
        | some det => simp only [get_k8s_status, hl, hf, hc]
  · cases hl : s.cache.stats.lookup cid with
    | some h => simp only [get_cluster_stats, hl]
    | none =>
      cases hf : s.db.clusters.find? (fun c => c.id == cid) with
      | none => simp only [get_cluster_stats, hl, hf]
      | some cl => simp only [get_cluster_stats, hl, hf]
  · intro hl
    cases hf : s.db.services.find? (fun x => x.ui_name == uiname) with
    | none =>
      left
      simp only [get_k8s_status, hl, hf]
    | some sv =>
      cases hc : sv.clusters.lookup cid with
      | none =>
        left
        simp only [get_k8s_status, hl, hf, hc]
      | some det =>
        right
        simp only [get_k8s_status, hl, hf, hc]
  · intro hl
    cases hf : s.db.clusters.find? (fun c => c.id == cid) with
    | none =>
      left
      simp only [get_cluster_stats, hl, hf]
    | some cl =>
      right
      simp only [get_cluster_stats, hl, hf]

/-- C8 witness: at the concrete mapped state, an uncached generic failure
lands in the allowed fragment set. -/
theorem c8_amended_failure_mapping_witness :
    (get_k8s_status "c1" "svc-a" 0 (Except.error UpstreamErr.exn) s_c8).1 = dash_fragment ∨
    (get_k8s_status "c1" "svc-a" 0 (Except.error UpstreamErr.exn) s_c8).1 = error_fragment :=
  (c8_amended_failure_mapping "c1" "svc-a" 0 UpstreamErr.exn UpstreamErr.exn s_c8).2.2.1 rfl

/-- The empty registry and caches with no session. -/
def empty_state : AppState :=
  { db := { clusters := [], services := [] },
    cache := { stats := [], statuses := [], timestamp := 0 },
    sso := { access_token := none, region := "us-east-1", role_name := none,
             cred_cache := [] } }

/-- C10 (confirmed): every `add_cluster` appends a record whose stored id
is exactly the alias lowercased with spaces replaced by dashes, with no
uniqueness check — concretely, adding aliases `"A B"` and `"a-b"` (which
normalize to the same string) leaves two cluster records with the
identical id `"a-b"` in the registry. -/
theorem c10_add_cluster_normalization (alias_name path : String) (s : AppState) :
    ((add_cluster alias_name path s).db.clusters.map (fun c => c.id) =
      s.db.clusters.map (fun c => c.id) ++ [py_lower_replace alias_name]) ∧
    (py_lower_replace "A B" = "a-b" ∧ py_lower_replace "a-b" = "a-b") ∧
    ((add_cluster "a-b" "p2" (add_cluster "A B" "p1" empty_state)).db.clusters.map
        (fun c => c.id) = ["a-b", "a-b"]) := by
  refine ⟨?_, ⟨by decide, by decide⟩, by decide⟩
  simp [add_cluster]
